import Mathlib

/-!
Verification of the remote-shell session manager and telemetry client of the
repository (src/project/ui04.py and src/project/workspace/websockui.py).

The Python source is shallowly embedded: byte strings become `List Nat`,
text become `List Char`, the mutable per-loop state is passed explicitly and
the environment (channel reads, exceptions, connection attempts) is supplied
as an explicit list of step descriptors.  Qt signal emissions become values
of explicit event types.
-/

/-- Events emitted by `SSHWorker` (its three Qt signals `output_received`,
`error_occurred`, `connection_closed` in src/project/ui04.py). -/
inductive SSHEvent where
  | output (text : List Char)
  | error (msg : String)
  | closed
deriving DecidableEq

/-- Text carried by an output event; error and closed events carry none.
Used to state what "the concatenation of all output events" means. -/
def outputText : SSHEvent → List Char
  | SSHEvent.output t => t
  | SSHEvent.error _ => []
  | SSHEvent.closed => []

/-- Concatenation of the text of all output events in an event list. -/
def outputsConcat (events : List SSHEvent) : List Char :=
  (events.map outputText).flatten

/-- Split a character buffer at the first newline, as Python's
`buffer.split("\n", 1)` does inside `SSHWorker.receive_output`
(ui04.py line 157); `none` when the buffer holds no newline
(the `while "\n" in buffer` guard is false). -/
def splitFirstNL : List Char → Option (List Char × List Char)
  | [] => none
  | c :: rest =>
    if c = '\n' then some ([], rest)
    else
      match splitFirstNL rest with
      | none => none
      | some (line, r) => some (c :: line, r)

theorem splitFirstNL_some (l line rest : List Char)
    (h : splitFirstNL l = some (line, rest)) : l = line ++ '\n' :: rest := by
  induction l generalizing line rest with
  | nil => simp [splitFirstNL] at h
  | cons c t ih =>
    by_cases hc : c = '\n'
    · subst hc
      simp [splitFirstNL] at h
      simp [← h.1, ← h.2]
    · simp only [splitFirstNL, if_neg hc] at h
      cases hsp : splitFirstNL t with
      | none => rw [hsp] at h; simp at h
      | some p =>
        obtain ⟨l', r'⟩ := p
        rw [hsp] at h
        simp at h
        obtain ⟨h1, h2⟩ := h
        have := ih l' r' hsp
        simp [← h1, ← h2, this]

theorem splitFirstNL_length (l line rest : List Char)
    (h : splitFirstNL l = some (line, rest)) : rest.length < l.length := by
  have := splitFirstNL_some l line rest h
  subst this
  simp
  omega

theorem splitFirstNL_of_no_nl (l : List Char) (h : '\n' ∉ l) :
    splitFirstNL l = none := by
  induction l with
  | nil => simp [splitFirstNL]
  | cons c t ih =>
    simp at h
    obtain ⟨h1, h2⟩ := h
    simp [splitFirstNL, Ne.symm h1, ih h2]

theorem splitFirstNL_ne_none_of_mem (l : List Char) (h : '\n' ∈ l) :
    splitFirstNL l ≠ none := by
  induction l with
  | nil => simp at h
  | cons c t ih =>
    by_cases hc : c = '\n'
    · simp [splitFirstNL, hc]
    · simp at h
      rcases h with h | h
      · exact absurd h.symm hc
      · simp only [splitFirstNL, if_neg hc]
        cases hy : splitFirstNL t with
        | none => exact absurd hy (ih h)
        | some q => obtain ⟨a, b⟩ := q; simp

/-- Drain every complete line from the reassembly buffer: repeatedly split at
the first newline and collect each line with its newline re-attached, exactly
as the `while "\n" in buffer` loop of `SSHWorker.receive_output` does
(ui04.py lines 156-158).  Returns the emitted lines and the remaining
(newline-free) buffer. -/
def drainNL (buffer : List Char) : List (List Char) × List Char :=
  match h : splitFirstNL buffer with
  | none => ([], buffer)
  | some (line, rest) =>
    let p := drainNL rest
    ((line ++ ['\n']) :: p.1, p.2)
termination_by buffer.length
decreasing_by
  exact splitFirstNL_length buffer line rest h

theorem drainNL_join (buffer : List Char) :
    ((drainNL buffer).1).flatten ++ (drainNL buffer).2 = buffer := by
  generalize hn : buffer.length = n
  induction n using Nat.strong_induction_on generalizing buffer with
  | _ n ih =>
    rw [drainNL]
    cases hsp : splitFirstNL buffer with
    | none => simp
    | some p =>
      obtain ⟨line, rest⟩ := p
      have hb := splitFirstNL_some buffer line rest hsp
      have hlen : rest.length < n := by
        subst hn; exact splitFirstNL_length buffer line rest hsp
      have ihr := ih rest.length hlen rest rfl
      rw [List.flatten_cons, List.append_assoc, ihr, hb]
      simp

theorem drainNL_no_nl (buffer : List Char) : '\n' ∉ (drainNL buffer).2 := by
  generalize hn : buffer.length = n
  induction n using Nat.strong_induction_on generalizing buffer with
  | _ n ih =>
    rw [drainNL]
    cases hsp : splitFirstNL buffer with
    | none =>
      simp
      intro hmem
      exact splitFirstNL_ne_none_of_mem buffer hmem hsp
    | some p =>
      obtain ⟨line, rest⟩ := p
      have hlen : rest.length < n := by
        subst hn; exact splitFirstNL_length buffer line rest hsp
      exact ih rest.length hlen rest rfl

theorem drainNL_of_no_nl (buffer : List Char) (h : '\n' ∉ buffer) :
    drainNL buffer = ([], buffer) := by
  rw [drainNL, splitFirstNL_of_no_nl buffer h]

/-- Check whether a byte is a UTF-8 continuation byte (0x80-0xBF). -/
def isContByte (b : Nat) : Bool :=
  0x80 ≤ b && b ≤ 0xBF

/-- Strict UTF-8 decoding, byte at a time: `need` is how many continuation
bytes the current sequence still requires, `cp` the partial code point
accumulated so far, and `lo`/`hi` the admissible range for the next byte
(narrowed after an 0xE0/0xED/0xF0/0xF4 lead so that overlong forms,
surrogates and values beyond U+10FFFF are rejected, exactly the sequences
Python's strict UTF-8 codec rejects).  `none` models the raised
`UnicodeDecodeError`. -/
def utf8Aux : List Nat → Nat → Nat → Nat → Nat → Option (List Char)
  | [], 0, _, _, _ => some []
  | [], _ + 1, _, _, _ => none
  | b :: rest, 0, _, _, _ =>
    if b < 0x80 then (utf8Aux rest 0 0 0 0).map (fun s => Char.ofNat b :: s)
    else if 0xC2 ≤ b && b ≤ 0xDF then utf8Aux rest 1 (b - 0xC0) 0x80 0xBF
    else if b = 0xE0 then utf8Aux rest 2 0 0xA0 0xBF
    else if b = 0xED then utf8Aux rest 2 (0xED - 0xE0) 0x80 0x9F
    else if 0xE0 ≤ b && b ≤ 0xEF then utf8Aux rest 2 (b - 0xE0) 0x80 0xBF
    else if b = 0xF0 then utf8Aux rest 3 0 0x90 0xBF
    else if b = 0xF4 then utf8Aux rest 3 (0xF4 - 0xF0) 0x80 0x8F
    else if 0xF0 ≤ b && b ≤ 0xF4 then utf8Aux rest 3 (b - 0xF0) 0x80 0xBF
    else none
  | b :: rest, 1, cp, lo, hi =>
    if lo ≤ b && b ≤ hi then
      (utf8Aux rest 0 0 0 0).map
        (fun s => Char.ofNat (cp * 0x40 + (b - 0x80)) :: s)
    else none
  | b :: rest, n + 2, cp, lo, hi =>
    if lo ≤ b && b ≤ hi then
      utf8Aux rest (n + 1) (cp * 0x40 + (b - 0x80)) 0x80 0xBF
    else none

/-- Strict UTF-8 decoding of a byte chunk, as Python's
`data.decode("utf-8")` inside `SSHWorker.receive_output` (ui04.py line 149):
`none` models the `UnicodeDecodeError` raised on any ill-formed input
(truncated sequences, overlong forms, surrogates, out-of-range values). -/
def utf8Decode? (data : List Nat) : Option (List Char) :=
  utf8Aux data 0 0 0 0

/-- Check whether a byte can be the second byte of a two-byte GBK sequence
(0x40-0xFE excluding 0x7F). -/
def isGbkSecond (b : Nat) : Bool :=
  0x40 ≤ b && b ≤ 0xFE && b != 0x7F

/-- Modelled from the spec: the character a valid two-byte GBK sequence maps
to.  The spec treats the secondary locale-specific encoding as an external
codec and its code table is not part of the repository, so the mapping is
modelled as an injective placeholder into a private-use plane.  No theorem
below depends on its concrete values. -/
def gbkPairChar (b1 b2 : Nat) : Char :=
  Char.ofNat (0xF0000 + (b1 - 0x81) * 191 + (b2 - 0x40))

/-- GBK decoding with undecodable bytes ignored, as Python's
`data.decode("gbk", errors="ignore")` (ui04.py line 151): ASCII bytes decode
to themselves, a valid lead byte (0x81-0xFE) followed by a valid second byte
yields one character, an invalid or truncated sequence is dropped (the
offending byte is skipped and decoding resynchronises), and a truncated
two-byte sequence at the end of the chunk is dropped entirely. -/
def gbkDecodeIgnore : List Nat → List Char
  | [] => []
  | [b] => if b < 0x80 then [Char.ofNat b] else []
  | b :: b2 :: rest =>
    if b < 0x80 then Char.ofNat b :: gbkDecodeIgnore (b2 :: rest)
    else if 0x81 ≤ b && b ≤ 0xFE then
      if isGbkSecond b2 then gbkPairChar b b2 :: gbkDecodeIgnore rest
      else gbkDecodeIgnore (b2 :: rest)
    else gbkDecodeIgnore (b2 :: rest)

/-- Decode one received chunk exactly as `SSHWorker.receive_output` does
(ui04.py lines 148-151): try strict UTF-8 and, if that raises, fall back to
GBK with undecodable bytes ignored.  Total: the fallback never raises. -/
def decodeChunk (data : List Nat) : List Char :=
  match utf8Decode? data with
  | some s => s
  | none => gbkDecodeIgnore data

/-- Process one decoded chunk against the reassembly buffer, as one
iteration of `SSHWorker.receive_output` does after a successful read
(ui04.py lines 153-163): append the text, emit every complete line with its
newline, then flush the whole remaining buffer as-is if it is non-empty and
longer than 100 characters.  Returns the new buffer and the emitted events. -/
def processChunk (buffer text : List Char) : List Char × List SSHEvent :=
  let b := buffer ++ text
  let p := drainNL b
  let lineEvents := p.1.map SSHEvent.output
  if p.2 ≠ [] ∧ 100 < p.2.length then
    ([], lineEvents ++ [SSHEvent.output p.2])
  else
    (p.2, lineEvents)

/-- Environment of one iteration of the `while self.is_running and
self.connection.is_connected` loop of `SSHWorker.receive_output`
(ui04.py lines 144-169): either the channel had no data ready, or `recv`
returned a byte chunk, or an I/O exception was raised (with the value the
`is_running` flag had when the handler ran, since `stop()` may have cleared
it concurrently).  The loop's cooperative exit — `is_running` or
`is_connected` observed false — is modelled by the end of the step list. -/
inductive RecvStep where
  | noData
  | data (chunk : List Nat)
  | ioError (msg : String) (stillRunning : Bool)
deriving DecidableEq

/-- Run the body of `SSHWorker.receive_output`'s while loop over a list of
iteration environments, starting from the given reassembly buffer: data
chunks are decoded and processed, an I/O exception emits one error event
(only if `is_running` was still set) and breaks out of the loop, discarding
the remaining steps.  Returns the emitted events and the final buffer. -/
def runSteps (buffer : List Char) : List RecvStep → List SSHEvent × List Char
  | [] => ([], buffer)
  | RecvStep.noData :: rest => runSteps buffer rest
  | RecvStep.data chunk :: rest =>
    let p := processChunk buffer (decodeChunk chunk)
    let q := runSteps p.1 rest
    (p.2 ++ q.1, q.2)
  | RecvStep.ioError msg stillRunning :: _ =>
    ((if stillRunning then [SSHEvent.error ("Connection error: " ++ msg)] else []),
      buffer)

/-- Whole run of `SSHWorker.receive_output` (ui04.py lines 141-173): the
loop body over the given iteration environments starting from an empty
buffer, then the final flush of any non-empty remaining buffer, then the
`connection_closed` emission. -/
def receiveOutput (steps : List RecvStep) : List SSHEvent :=
  let p := runSteps [] steps
  p.1 ++ (if p.2 = [] then [] else [SSHEvent.output p.2]) ++ [SSHEvent.closed]

/-- Byte chunks actually delivered to the loop during a run: every chunk up
to, but not including, the iteration whose read raised (after which the loop
breaks and reads no more). -/
def delivered : List RecvStep → List (List Nat)
  | [] => []
  | RecvStep.noData :: rest => delivered rest
  | RecvStep.data chunk :: rest => chunk :: delivered rest
  | RecvStep.ioError _ _ :: _ => []

/-- State of the `SSHConnection` dataclass (ui04.py lines 66-100).  The
opaque `paramiko` handles `client` and `shell` are modelled by whether they
are set (`is not None`); `completions` starts from a built-in command list
in the source, kept here as an ordinary field value. -/
structure SSHConnection where
  host : String
  port : Int
  username : String
  password : String
  client_open : Bool
  shell_open : Bool
  is_connected : Bool
  history : List String
  completions : List String
deriving DecidableEq

/-- History and completion update performed by `SSHTerminal.send_command`
(ui04.py lines 330-351) on the already-stripped command text: return
unchanged if the command is empty or the session is not connected;
otherwise append the command to `history` if it is not already anywhere in
`history`, and in that case also append it to `completions` if new there.
The local echo, the forwarding to the worker and the input-box clearing are
display and channel actions modelled elsewhere. -/
def terminalSendCommand (conn : SSHConnection) (command : String) : SSHConnection :=
  if command = "" ∨ conn.is_connected = false then conn
  else if command ∉ conn.history then
    { conn with
      history := conn.history ++ [command]
      completions :=
        if command ∉ conn.completions then conn.completions ++ [command]
        else conn.completions }
  else conn

/-- Channel write performed by `SSHWorker.send_command` (ui04.py lines
133-139): the write is attempted only when the shell handle is set and the
session is connected; `writeError` is the environment's choice of whether
`shell.send` raises (and with what message).  On an exception exactly one
error event is emitted and nothing else happens; the connection state is
never touched. -/
def sshWorkerSendCommand (conn : SSHConnection) (writeError : Option String)
    (command : String) : SSHConnection × List SSHEvent :=
  if conn.shell_open && conn.is_connected then
    match writeError with
    | none => (conn, [])
    | some e => (conn, [SSHEvent.error ("Failed to send command: " ++ e)])
  else (conn, [])

/-- JSON values, the possible results of `json.loads` on an inbound
telemetry message (ui04.py line 687, websockui.py line 122). -/
inductive JValue where
  | null
  | bool (b : Bool)
  | num (n : Int)
  | str (s : String)
  | arr (elements : List JValue)
  | obj (fields : List (String × JValue))

/-- Python `dict.get(key)` on a decoded JSON object: the value of the first
field with the given key, if any. -/
def dictGet (fields : List (String × JValue)) (key : String) : Option JValue :=
  (fields.find? (fun p => p.1 == key)).map (fun p => p.2)

/-- The `WebSocketData` dataclass (ui04.py lines 103-108): a timestamp and
a variables mapping.  The dataclass performs no runtime validation, so both
fields hold whatever JSON value `dict.get` produced.  The source names the
second field `variables`, a reserved word here, so it is called `vars`. -/
structure WebSocketData where
  timestamp : JValue
  vars : JValue

/-- Ring-buffer capacity `self.max_data_points` (ui04.py line 583,
websockui.py line 43). -/
def maxDataPoints : Nat := 100

/-- Append one record to `self.data_buffer` as `DataVisualizer.
websocket_client` does (ui04.py lines 693-695, websockui.py lines 128-130):
`append`, then `pop(0)` once if the length now exceeds `max_data_points`. -/
def dataBufferPush (buffer : List WebSocketData) (d : WebSocketData) :
    List WebSocketData :=
  let b := buffer ++ [d]
  if maxDataPoints < b.length then b.tail else b

/-- One inbound websocket message as the client sees it: either
`json.loads` raises `json.JSONDecodeError`, or it returns a JSON value. -/
inductive Payload where
  | notJson
  | decoded (v : JValue)

/-- Processing of one inbound message by `DataVisualizer.websocket_client`
in ui04.py (lines 685-699): a JSON decode error hits `except
json.JSONDecodeError: continue`; a decoded JSON object is turned into a
`WebSocketData` with `data.get("timestamp", time.time())` (the `now`
argument is that default) and `data.get("variables", {})`, emitted and
pushed, with no structural validation of the field values; a decoded
non-object raises `AttributeError` at `data.get`, which the blanket
`except Exception` swallows, so the message is dropped and the loop
continues.  Returns the new buffer; this variant never ends the loop. -/
def processMessageUi04 (now : JValue) (buffer : List WebSocketData)
    (p : Payload) : List WebSocketData :=
  match p with
  | Payload.notJson => buffer
  | Payload.decoded (JValue.obj fields) =>
    let ts := (dictGet fields "timestamp").getD now
    let vars := (dictGet fields "variables").getD (JValue.obj [])
    dataBufferPush buffer { timestamp := ts, vars := vars }
  | Payload.decoded _ => buffer

/-- Result of processing one message in the workspace variant: either the
message loop continues with the given buffer, or an uncaught exception
escapes the `async for` to the connection-level handler, ending the inner
message loop. -/
inductive LoopStep where
  | continueLoop (buffer : List WebSocketData)
  | raiseOut (buffer : List WebSocketData)

/-- Processing of one inbound message by `DataVisualizer.websocket_client`
in websockui.py (lines 120-132), which catches only
`json.JSONDecodeError`: a decoded non-object raises `AttributeError` at
`data.get` and, with no blanket handler, that exception escapes the message
loop. -/
def processMessageWorkspace (now : JValue) (buffer : List WebSocketData)
    (p : Payload) : LoopStep :=
  match p with
  | Payload.notJson => LoopStep.continueLoop buffer
  | Payload.decoded (JValue.obj fields) =>
    let ts := (dictGet fields "timestamp").getD now
    let vars := (dictGet fields "variables").getD (JValue.obj [])
    LoopStep.continueLoop
      (dataBufferPush buffer { timestamp := ts, vars := vars })
  | Payload.decoded _ => LoopStep.raiseOut buffer

/-- Outcome of one iteration of the `while True` connection loop of
`DataVisualizer.websocket_client` (ui04.py lines 677-703, websockui.py
lines 107-136): the `websockets.connect` call raises; or the connection
opens and the message iteration later raises (server lost abnormally); or
the connection opens and the `async for` ends normally because the peer
closed the stream cleanly, which raises nothing. -/
inductive WsAttempt where
  | connectError
  | streamError
  | streamEnd
deriving DecidableEq

/-- Observable status-label updates and backoff sleeps of the websocket
client loop. -/
inductive WsStatusEvent where
  | connected
  | disconnectedRetrying
  | backoffSleep (seconds : Nat)
deriving DecidableEq

/-- Status/sleep trace of `DataVisualizer.websocket_client` over a list of
connection-attempt outcomes: a successful open sets the label to
"Connected"; any exception — from `connect` or from the message iteration —
is caught by `except Exception`, sets "Disconnected (retrying...)" and
sleeps 3 seconds before the loop restarts; a normal stream end leaves the
`async with` without an exception, so the loop restarts immediately with no
label change and no sleep. -/
def wsClientTrace : List WsAttempt → List WsStatusEvent
  | [] => []
  | WsAttempt.connectError :: rest =>
    WsStatusEvent.disconnectedRetrying :: WsStatusEvent.backoffSleep 3 ::
      wsClientTrace rest
  | WsAttempt.streamError :: rest =>
    WsStatusEvent.connected :: WsStatusEvent.disconnectedRetrying ::
      WsStatusEvent.backoffSleep 3 :: wsClientTrace rest
  | WsAttempt.streamEnd :: rest =>
    WsStatusEvent.connected :: wsClientTrace rest

/-- Keys of a decoded JSON object, as `list(latest_data.variables.keys())`
in `DataVisualizer.update_plot` (ui04.py line 737, websockui.py line 167).
On a non-object the source raises earlier in the same tick (at
`latest_data.variables.items()`), so the non-object branch is unreachable
under the well-formedness hypotheses of the theorems below. -/
def jsonObjKeys : JValue → List String
  | JValue.obj fields => fields.map Prod.fst
  | _ => []

/-- Python `d.variables.get(var, 0)` in `DataVisualizer.update_plot`
(ui04.py line 745, websockui.py line 175): the variable's value in the
record, or 0 when absent.  The non-object branch is unreachable under the
theorems' well-formedness hypotheses (the source would have raised). -/
def recordVarGet (d : WebSocketData) (key : String) : JValue :=
  match d.vars with
  | JValue.obj fields => (dictGet fields key).getD (JValue.num 0)
  | _ => JValue.num 0

/-- Data handed to the plot widget by one presenter tick: the variable list
taken from the latest record, the x series of timestamps and the per-
variable y series. -/
structure PlotProjection where
  vars : List String
  times : List JValue
  series : List (String × List JValue)

/-- Data projection of `DataVisualizer.update_plot` (ui04.py lines 714-748,
websockui.py lines 145-178): `none` when the buffer is empty (the early
return); otherwise the variable list is recomputed from the latest record's
keys, the x values are every buffered record's timestamp, and each
variable's y series takes `d.variables.get(var, 0)` over the whole buffer. -/
def updatePlotData (buffer : List WebSocketData) : Option PlotProjection :=
  match buffer.getLast? with
  | none => none
  | some latest =>
    let vars := jsonObjKeys latest.vars
    some
      { vars := vars
        times := buffer.map (fun d => d.timestamp)
        series := vars.map (fun v => (v, buffer.map (fun d => recordVarGet d v))) }

theorem outputsConcat_append (a b : List SSHEvent) :
    outputsConcat (a ++ b) = outputsConcat a ++ outputsConcat b := by
  simp [outputsConcat]

theorem outputsConcat_map_output (ls : List (List Char)) :
    outputsConcat (ls.map SSHEvent.output) = ls.flatten := by
  induction ls with
  | nil => rfl
  | cons l t ih => simp [outputsConcat, outputText] at ih ⊢; exact ih

theorem processChunk_concat (buffer text : List Char) :
    outputsConcat (processChunk buffer text).2 ++ (processChunk buffer text).1 =
      buffer ++ text := by
  unfold processChunk
  by_cases hc : (drainNL (buffer ++ text)).2 ≠ [] ∧ 100 < (drainNL (buffer ++ text)).2.length
  · simp only [if_pos hc]
    rw [outputsConcat_append, outputsConcat_map_output]
    simp [outputsConcat, outputText]
    rw [drainNL_join]
  · simp only [if_neg hc]
    rw [outputsConcat_map_output]
    exact drainNL_join (buffer ++ text)

theorem runSteps_concat (steps : List RecvStep) (buffer : List Char) :
    outputsConcat (runSteps buffer steps).1 ++ (runSteps buffer steps).2 =
      buffer ++ ((delivered steps).map decodeChunk).flatten := by
  induction steps generalizing buffer with
  | nil => simp [runSteps, delivered, outputsConcat]
  | cons step rest ih =>
    cases step with
    | noData => simpa [runSteps, delivered] using ih buffer
    | data chunk =>
      simp only [runSteps, delivered, List.map_cons, List.flatten_cons]
      rw [outputsConcat_append, List.append_assoc, ih, ← List.append_assoc,
        processChunk_concat, List.append_assoc]
    | ioError msg stillRunning =>
      cases stillRunning with
      | true => simp [runSteps, delivered, outputsConcat, outputText]
      | false => simp [runSteps, delivered, outputsConcat]

theorem processChunk_events_output (buffer text : List Char) :
    ∀ e ∈ (processChunk buffer text).2, ∃ t, e = SSHEvent.output t := by
  unfold processChunk
  by_cases hc : (drainNL (buffer ++ text)).2 ≠ [] ∧ 100 < (drainNL (buffer ++ text)).2.length
  · simp only [if_pos hc]
    intro e he
    simp at he
    rcases he with ⟨t, _, ht⟩ | ht
    · exact ⟨t, ht.symm⟩
    · exact ⟨_, ht⟩
  · simp only [if_neg hc]
    intro e he
    simp at he
    obtain ⟨t, _, ht⟩ := he
    exact ⟨t, ht.symm⟩

theorem runSteps_no_closed (steps : List RecvStep) (buffer : List Char) :
    SSHEvent.closed ∉ (runSteps buffer steps).1 := by
  induction steps generalizing buffer with
  | nil => simp [runSteps]
  | cons step rest ih =>
    cases step with
    | noData => simpa [runSteps] using ih buffer
    | data chunk =>
      simp only [runSteps, List.mem_append]
      intro h
      rcases h with h | h
      · obtain ⟨t, ht⟩ := processChunk_events_output buffer (decodeChunk chunk) _ h
        exact SSHEvent.noConfusion ht
      · exact ih _ h
    | ioError msg stillRunning =>
      cases stillRunning with
      | true => simp [runSteps]
      | false => simp [runSteps]

/-- C1 (amended): over any run of the receive loop, the concatenation of all
output events — final flush included — equals the concatenation of the
per-chunk decodings of the byte chunks the loop actually read.  Reassembly
is therefore invariant under re-splitting of the decoded text; it is not
invariant under re-splitting of the raw bytes, because each chunk is decoded
on its own (see the counterexample). -/
theorem receive_output_concat_decoded_chunks (steps : List RecvStep) :
    outputsConcat (receiveOutput steps) =
      ((delivered steps).map decodeChunk).flatten := by
  unfold receiveOutput
  rw [outputsConcat_append, outputsConcat_append]
  have hclosed : outputsConcat [SSHEvent.closed] = [] := rfl
  rw [hclosed, List.append_nil]
  have hmain := runSteps_concat steps []
  simp only [List.nil_append] at hmain
  by_cases hp : (runSteps [] steps).2 = []
  · rw [if_pos hp]
    simpa [outputsConcat, hp] using hmain
  · rw [if_neg hp]
    have : outputsConcat [SSHEvent.output (runSteps [] steps).2] =
        (runSteps [] steps).2 := by simp [outputsConcat, outputText]
    rw [this]
    exact hmain

/-- C1 counterexample: delivering the two UTF-8 bytes of "é" in one chunk
emits "é", but delivering the same bytes split into two one-byte chunks
emits nothing at all — each fragment fails UTF-8 decoding and is dropped by
the GBK fallback as a truncated sequence — so the emitted text differs from
the decoding of the delivered bytes and depends on the split points. -/
theorem receive_output_byte_split_dependent :
    outputsConcat (receiveOutput [RecvStep.data [0xC3], RecvStep.data [0xA9]]) = [] ∧
    decodeChunk [0xC3, 0xA9] = [Char.ofNat 233] ∧
    outputsConcat (receiveOutput [RecvStep.data [0xC3, 0xA9]]) = [Char.ofNat 233] ∧
    ([] : List Char) ≠ [Char.ofNat 233] := by
  have e1 : decodeChunk [0xC3] = [] := by decide
  have e2 : decodeChunk [0xA9] = [] := by decide
  have e3 : decodeChunk [0xC3, 0xA9] = [Char.ofNat 233] := by decide
  have d0 : drainNL [] = ([], []) := drainNL_of_no_nl [] (by decide)
  have d1 : drainNL [Char.ofNat 233] = ([], [Char.ofNat 233]) :=
    drainNL_of_no_nl _ (by decide)
  refine ⟨?_, e3, ?_, by simp⟩
  · simp [receiveOutput, runSteps, processChunk, e1, e2, d0, outputsConcat,
      outputText]
  · simp [receiveOutput, runSteps, processChunk, e3, d1, outputsConcat,
      outputText]

/-- C3 (confirmed): every run of the receive loop — cooperative stop, I/O
error or disconnect, over any number of iterations — emits exactly one
closed event, which is the last event (hence after every output event), and
when the remaining reassembly buffer is non-empty the events end with that
buffer flushed as one final output event immediately before the closed
event. -/
theorem receive_output_closed_once_last (steps : List RecvStep) :
    (receiveOutput steps).count SSHEvent.closed = 1 ∧
    (receiveOutput steps).getLast? = some SSHEvent.closed ∧
    ((runSteps [] steps).2 ≠ [] →
      receiveOutput steps =
        (runSteps [] steps).1 ++
          [SSHEvent.output (runSteps [] steps).2, SSHEvent.closed]) := by
  refine ⟨?_, ?_, ?_⟩
  · unfold receiveOutput
    rw [List.count_append, List.count_append]
    have h1 : (runSteps [] steps).1.count SSHEvent.closed = 0 :=
      List.count_eq_zero.mpr (runSteps_no_closed steps [])
    rw [h1]
    by_cases hp : (runSteps [] steps).2 = []
    · simp [hp]
    · simp [hp, List.count_singleton]
  · show ((runSteps [] steps).1 ++
        (if (runSteps [] steps).2 = [] then []
          else [SSHEvent.output (runSteps [] steps).2]) ++
        [SSHEvent.closed]).getLast? = some SSHEvent.closed
    rw [List.getLast?_concat]
  · intro h
    simp [receiveOutput, if_neg h]

theorem drainNL_singleton_97 :
    drainNL [Char.ofNat 97] = ([], [Char.ofNat 97]) :=
  drainNL_of_no_nl _ (by decide)

/-- C3 witness: a run that reads the single byte 0x61 ends with the
buffered character flushed as a final output event followed by the one
closed event. -/
theorem receive_output_closed_once_last_witness :
    (runSteps [] [RecvStep.data [97]]).2 ≠ [] ∧
    receiveOutput [RecvStep.data [97]] =
      (runSteps [] [RecvStep.data [97]]).1 ++
        [SSHEvent.output (runSteps [] [RecvStep.data [97]]).2, SSHEvent.closed] := by
  have e : decodeChunk [97] = [Char.ofNat 97] := by decide
  have h : (runSteps [] [RecvStep.data [97]]).2 ≠ [] := by
    simp [runSteps, processChunk, e, drainNL_singleton_97]
  exact ⟨h, (receive_output_closed_once_last [RecvStep.data [97]]).2.2 h⟩

/-- C9 (confirmed): when neither the buffer nor the newly decoded text holds
a newline and the accumulated length exceeds 100 characters, the iteration
emits the whole accumulation as one flush output event and clears the
buffer; consequently a newline-free reassembly buffer never survives an
iteration with more than 100 characters. -/
theorem reassembly_flush_threshold :
    (∀ buffer text : List Char, '\n' ∉ buffer → '\n' ∉ text →
      100 < (buffer ++ text).length →
      processChunk buffer text = ([], [SSHEvent.output (buffer ++ text)])) ∧
    (∀ buffer text : List Char, '\n' ∉ buffer → '\n' ∉ text →
      (processChunk buffer text).1.length ≤ 100) := by
  have main : ∀ buffer text : List Char, '\n' ∉ buffer → '\n' ∉ text →
      100 < (buffer ++ text).length →
      processChunk buffer text = ([], [SSHEvent.output (buffer ++ text)]) := by
    intro buffer text hb ht hlen
    have hnn : '\n' ∉ buffer ++ text := by simp [hb, ht]
    have hne : buffer ++ text ≠ [] := by
      intro hcontra; rw [hcontra] at hlen; simp at hlen
    have hlen' : 100 < buffer.length + text.length := by simpa using hlen
    simp only [processChunk]
    rw [drainNL_of_no_nl _ hnn]
    simp [hne, hlen']
  refine ⟨main, ?_⟩
  intro buffer text hb ht
  by_cases hlen : 100 < (buffer ++ text).length
  · rw [main buffer text hb ht hlen]; simp
  · have hnn : '\n' ∉ buffer ++ text := by simp [hb, ht]
    have hlen' : ¬100 < buffer.length + text.length := by simpa using hlen
    simp only [processChunk]
    rw [drainNL_of_no_nl _ hnn]
    simp [hlen']
    omega

/-- C9 witness: 60 newline-free characters in the buffer plus 41 more from
the chunk exceed the threshold and are flushed in one output event, leaving
the buffer empty. -/
theorem reassembly_flush_threshold_witness :
    ('\n' ∉ List.replicate 60 'a') ∧ ('\n' ∉ List.replicate 41 'b') ∧
    100 < (List.replicate 60 'a' ++ List.replicate 41 'b').length ∧
    processChunk (List.replicate 60 'a') (List.replicate 41 'b') =
      ([], [SSHEvent.output (List.replicate 60 'a' ++ List.replicate 41 'b')]) :=
  ⟨by decide, by decide, by decide,
    reassembly_flush_threshold.1 _ _ (by decide) (by decide) (by decide)⟩

theorem utf8Decode?_ascii (data : List Nat) (h : ∀ b ∈ data, b < 0x80) :
    utf8Decode? data = some (data.map Char.ofNat) := by
  induction data with
  | nil => rfl
  | cons b t ih =>
    have hb : b < 0x80 := h b (by simp)
    have ht : ∀ x ∈ t, x < 0x80 := fun x hx => h x (by simp [hx])
    simp only [utf8Decode?] at ih ⊢
    simp only [utf8Aux]
    rw [if_pos hb, ih ht]
    rfl

/-- Fresh connected session used by concrete witnesses: valid parameters,
open client and shell handles, empty history and completion list. -/
def connectedConn : SSHConnection :=
  { host := "h", port := 22, username := "u", password := "p",
    client_open := true, shell_open := true, is_connected := true,
    history := [], completions := [] }

/-- C8 counterexample: the chunk consisting of the single byte 0xFF fails
UTF-8 decoding and the GBK fallback ignores the byte, so the decode yields
the empty string — the whole chunk is lost, and nothing is substituted for
the undecodable byte. -/
theorem decode_chunk_loses_whole_chunk :
    decodeChunk [0xFF] = [] ∧ utf8Decode? [0xFF] = none := by
  exact ⟨by decide, by decide⟩

/-- C8 (amended): every chunk is first decoded as strict UTF-8; on failure
the decode falls back to GBK with undecodable bytes dropped (ignored, not
substituted), so decoding always yields a — possibly empty — text and never
raises; a pure-ASCII chunk always decodes to exactly its own characters. -/
theorem decode_chunk_total_fallback :
    (∀ data s, utf8Decode? data = some s → decodeChunk data = s) ∧
    (∀ data, utf8Decode? data = none → decodeChunk data = gbkDecodeIgnore data) ∧
    (∀ data : List Nat, (∀ b ∈ data, b < 0x80) →
      decodeChunk data = data.map Char.ofNat) := by
  refine ⟨?_, ?_, ?_⟩
  · intro data s h; unfold decodeChunk; rw [h]
  · intro data h; unfold decodeChunk; rw [h]
  · intro data h; unfold decodeChunk; rw [utf8Decode?_ascii data h]

/-- C8 witness: the ASCII chunk "hi" decodes by UTF-8 alone to its own two
characters, and a lone 0xC3 byte takes the GBK fallback path. -/
theorem decode_chunk_total_fallback_witness :
    utf8Decode? [104, 105] = some [Char.ofNat 104, Char.ofNat 105] ∧
    decodeChunk [104, 105] = [Char.ofNat 104, Char.ofNat 105] ∧
    utf8Decode? [0xC3] = none ∧
    decodeChunk [0xC3] = gbkDecodeIgnore [0xC3] ∧
    decodeChunk [104, 105] = [104, 105].map Char.ofNat :=
  ⟨by decide, decode_chunk_total_fallback.1 _ _ (by decide), by decide,
    decode_chunk_total_fallback.2.1 _ (by decide),
    decode_chunk_total_fallback.2.2 _ (by decide)⟩

/-- C2 counterexample: submitting "a", then "b", then "a" again on a fresh
connected session leaves the history at ["a", "b"], not the ["a", "b", "a"]
the claim requires — `send_command` skips any command already anywhere in
the history, not just a consecutive duplicate. -/
theorem send_command_global_dedup_counterexample :
    (terminalSendCommand (terminalSendCommand (terminalSendCommand
      connectedConn "a") "b") "a").history = ["a", "b"] ∧
    (["a", "b"] : List String) ≠ ["a", "b", "a"] := by
  exact ⟨by decide, by decide⟩

/-- C2 (amended): `send_command` appends the submitted text to the history
exactly when the text is non-empty, the session is connected, and the text
does not appear anywhere in the history; every duplicate is skipped, not
only consecutive ones, so a duplicate-free history stays duplicate-free
(and in particular never holds two consecutive identical entries). -/
theorem send_command_history_append_iff (conn : SSHConnection) (command : String) :
    ((terminalSendCommand conn command).history = conn.history ++ [command] ↔
      command ≠ "" ∧ conn.is_connected = true ∧ command ∉ conn.history) ∧
    (conn.history.Nodup → (terminalSendCommand conn command).history.Nodup) := by
  by_cases h1 : command = "" ∨ conn.is_connected = false
  · rcases h1 with h1 | h1
    · simp [terminalSendCommand, h1]
    · simp [terminalSendCommand, h1]
  · push_neg at h1
    obtain ⟨hc, hi⟩ := h1
    have hi' : conn.is_connected = true := by
      cases hb : conn.is_connected with
      | false => exact absurd hb hi
      | true => rfl
    by_cases h2 : command ∈ conn.history
    · simp [terminalSendCommand, hc, hi', h2]
    · constructor
      · simp [terminalSendCommand, hc, hi', h2]
      · intro hnd
        have heq : (terminalSendCommand conn command).history =
            conn.history ++ [command] := by
          simp [terminalSendCommand, hc, hi', h2]
        rw [heq]
        refine List.Nodup.append hnd (List.nodup_singleton _) ?_
        intro x hx hx2
        simp at hx2
        subst hx2
        exact h2 hx

/-- C2 witness: on a fresh connected session with empty (hence
duplicate-free) history, submitting "x" keeps the history duplicate-free. -/
theorem send_command_history_append_iff_witness :
    connectedConn.history.Nodup ∧
    (terminalSendCommand connectedConn "x").history.Nodup :=
  ⟨List.nodup_nil, (send_command_history_append_iff connectedConn "x").2 List.nodup_nil⟩

/-- C7 (confirmed): when the session is connected and the shell handle is
set, a failing channel write inside `SSHWorker.send_command` emits exactly
one error event and changes nothing: the returned connection state is the
original one, so the session is still connected and the operator may
retry. -/
theorem worker_send_error_nonfatal (conn : SSHConnection) (e command : String)
    (hshell : conn.shell_open = true) (hconn : conn.is_connected = true) :
    sshWorkerSendCommand conn (some e) command =
      (conn, [SSHEvent.error ("Failed to send command: " ++ e)]) := by
  simp [sshWorkerSendCommand, hshell, hconn]

/-- C7 witness: a concrete connected session whose channel write raises
"boom" keeps its state and yields the single error event. -/
theorem worker_send_error_nonfatal_witness :
    sshWorkerSendCommand connectedConn (some "boom") "ls" =
      (connectedConn, [SSHEvent.error ("Failed to send command: " ++ "boom")]) :=
  worker_send_error_nonfatal connectedConn "boom" "ls" rfl rfl

theorem drop_append_shift (t l : List WebSocketData) (d k : Nat)
    (hd : d ≤ l.length) :
    (l.drop d ++ t).drop k = (l ++ t).drop (d + k) := by
  induction l generalizing d with
  | nil =>
    have : d = 0 := by simpa using hd
    simp [this]
  | cons a l' ih =>
    cases d with
    | zero => simp
    | succ d' =>
      simp only [List.drop_succ_cons, List.cons_append]
      rw [show d' + 1 + k = (d' + k) + 1 by omega]
      simp only [List.drop_succ_cons]
      exact ih d' (by simpa using hd)

theorem dataBufferPush_foldl (records : List WebSocketData) :
    ∀ buf : List WebSocketData, buf.length ≤ maxDataPoints →
      records.foldl dataBufferPush buf =
        (buf ++ records).drop (buf.length + records.length - maxDataPoints) := by
  induction records with
  | nil =>
    intro buf h
    simp [Nat.sub_eq_zero_of_le h]
  | cons r rest ih =>
    intro buf h
    simp only [List.foldl_cons]
    by_cases hlen : maxDataPoints < (buf ++ [r]).length
    · have hb : buf.length = maxDataPoints := by
        simp at hlen; omega
      have hstep : dataBufferPush buf r = (buf ++ [r]).drop 1 := by
        unfold dataBufferPush
        rw [if_pos hlen, List.drop_one]
      have hlen2 : ((buf ++ [r]).drop 1).length ≤ maxDataPoints := by
        simp; omega
      rw [hstep, ih _ hlen2, drop_append_shift rest (buf ++ [r]) 1 _ (by simp)]
      have hidx : 1 + (((buf ++ [r]).drop 1).length + rest.length - maxDataPoints) =
          buf.length + (r :: rest).length - maxDataPoints := by
        simp; omega
      rw [hidx]
      simp
    · have hstep : dataBufferPush buf r = buf ++ [r] := by
        unfold dataBufferPush
        rw [if_neg hlen]
      have hlen2 : (buf ++ [r]).length ≤ maxDataPoints := by
        simp at hlen ⊢; omega
      rw [hstep, ih _ hlen2]
      have hn : (buf ++ [r]).length + rest.length - maxDataPoints =
          buf.length + (r :: rest).length - maxDataPoints := by
        simp; omega
      rw [hn]
      simp

/-- C4 (confirmed): feeding any sequence of records through the
append-then-pop ring buffer starting empty leaves at most `maxDataPoints`
(100) records — exactly the last 100 in arrival order once more than 100
have arrived — and the oldest retained record is input record number
`length - 100`; with 150 records that is record 50, whose timestamp is then
`buffer[0].timestamp`. -/
theorem data_buffer_ring_capacity (records : List WebSocketData) :
    (records.foldl dataBufferPush []).length = min records.length maxDataPoints ∧
    records.foldl dataBufferPush [] =
      records.drop (records.length - maxDataPoints) ∧
    (records.foldl dataBufferPush []).head? =
      records.get? (records.length - maxDataPoints) := by
  have h := dataBufferPush_foldl records [] (by simp)
  simp only [List.nil_append, List.length_nil, Nat.zero_add] at h
  refine ⟨?_, h, ?_⟩
  · rw [h, List.length_drop]
    omega
  · rw [h, List.head?_eq_getElem?, List.getElem?_drop, List.get?_eq_getElem?,
      Nat.add_zero]

/-- C5 counterexample: two consecutive normal stream ends produce two
"Connected" updates and nothing else — no "disconnected, retrying" mark and
no backoff sleep — because a normally ending message iteration raises no
exception and the loop reconnects immediately. -/
theorem websocket_stream_end_no_backoff :
    wsClientTrace [WsAttempt.streamEnd, WsAttempt.streamEnd] =
      [WsStatusEvent.connected, WsStatusEvent.connected] ∧
    WsStatusEvent.disconnectedRetrying ∉
      wsClientTrace [WsAttempt.streamEnd, WsAttempt.streamEnd] ∧
    WsStatusEvent.backoffSleep 3 ∉
      wsClientTrace [WsAttempt.streamEnd, WsAttempt.streamEnd] := by
  exact ⟨rfl, by decide, by decide⟩

/-- C5 (amended): an exception — a failed connect or an abnormal stream
error — marks "disconnected, retrying" and sleeps the fixed 3-second
backoff before the loop restarts, for every such failure without bound; a
normal stream end restarts the loop immediately with no status change and
no backoff.  In the scenario where the first attempt throws and the second
succeeds, "disconnected, retrying" is observed before "connected" with
exactly one backoff sleep between them. -/
theorem websocket_retry_on_exception (rest : List WsAttempt) :
    wsClientTrace (WsAttempt.connectError :: rest) =
      WsStatusEvent.disconnectedRetrying :: WsStatusEvent.backoffSleep 3 ::
        wsClientTrace rest ∧
    wsClientTrace (WsAttempt.streamError :: rest) =
      WsStatusEvent.connected :: WsStatusEvent.disconnectedRetrying ::
        WsStatusEvent.backoffSleep 3 :: wsClientTrace rest ∧
    wsClientTrace (WsAttempt.streamEnd :: rest) =
      WsStatusEvent.connected :: wsClientTrace rest ∧
    wsClientTrace (WsAttempt.connectError :: WsAttempt.streamEnd :: rest) =
      WsStatusEvent.disconnectedRetrying :: WsStatusEvent.backoffSleep 3 ::
        WsStatusEvent.connected :: wsClientTrace rest :=
  ⟨rfl, rfl, rfl, rfl⟩

/-- C6 counterexample: the message `{"variables": 5}` decodes as JSON but
has invalid structure, yet the client appends it to the ring buffer with
the nonsense value stored as-is; and in the workspace variant a decodable
non-object message (the JSON number 7) raises at `data.get` and ends the
inner message loop instead of being dropped. -/
theorem websocket_invalid_structure_appended :
    processMessageUi04 (JValue.num 0) []
      (Payload.decoded (JValue.obj [("variables", JValue.num 5)])) =
      [{ timestamp := JValue.num 0, vars := JValue.num 5 }] ∧
    processMessageUi04 (JValue.num 0) []
      (Payload.decoded (JValue.obj [("variables", JValue.num 5)])) ≠ [] ∧
    processMessageWorkspace (JValue.num 0) [] (Payload.decoded (JValue.num 7)) =
      LoopStep.raiseOut [] := by
  have e1 : processMessageUi04 (JValue.num 0) []
      (Payload.decoded (JValue.obj [("variables", JValue.num 5)])) =
      [{ timestamp := JValue.num 0, vars := JValue.num 5 }] := rfl
  refine ⟨e1, ?_, rfl⟩
  rw [e1]
  simp

/-- C6 (amended): a message whose payload fails JSON decoding is silently
dropped in both variants — the loop continues and the ring buffer is
untouched; structure beyond that is not validated (see the
counterexample). -/
theorem websocket_not_json_dropped (now : JValue) (buffer : List WebSocketData) :
    processMessageUi04 now buffer Payload.notJson = buffer ∧
    processMessageWorkspace now buffer Payload.notJson =
      LoopStep.continueLoop buffer :=
  ⟨rfl, rfl⟩

/-- C10 (confirmed): at any presenter tick with a non-empty buffer of
well-formed records, the plot series are built over the latest record's
variable keys; the x series has one timestamp per buffered record, every
per-variable y series has exactly one value per buffered record (the same
length as the x series), and a buffered record that lacks a variable
contributes the value 0 to that variable's series. -/
theorem update_plot_series_aligned (buffer : List WebSocketData)
    (hne : buffer ≠ [])
    (hwf : ∀ d ∈ buffer, ∃ fields, d.vars = JValue.obj fields) :
    ∃ proj latest, buffer.getLast? = some latest ∧
      updatePlotData buffer = some proj ∧
      proj.vars = jsonObjKeys latest.vars ∧
      proj.times.length = buffer.length ∧
      proj.series.map Prod.fst = proj.vars ∧
      (∀ pr ∈ proj.series, pr.2.length = buffer.length) ∧
      (∀ v ys, (v, ys) ∈ proj.series → ∀ i d fields,
        buffer.get? i = some d → d.vars = JValue.obj fields →
        dictGet fields v = none → ys.get? i = some (JValue.num 0)) := by
  obtain ⟨latest, hlast⟩ : ∃ latest, buffer.getLast? = some latest := by
    cases hb : buffer.getLast? with
    | none => exact absurd (List.getLast?_eq_none_iff.mp hb) hne
    | some x => exact ⟨x, rfl⟩
  refine ⟨{ vars := jsonObjKeys latest.vars
            times := buffer.map (fun d => d.timestamp)
            series := (jsonObjKeys latest.vars).map
              (fun v => (v, buffer.map (fun d => recordVarGet d v))) },
    latest, hlast, ?_, rfl, by simp, ?_, ?_, ?_⟩
  · simp [updatePlotData, hlast]
  · simp [List.map_map, Function.comp_def]
  · intro pr hpr
    simp at hpr
    obtain ⟨v, _, hpr⟩ := hpr
    rw [← hpr]
    simp
  · intro v ys hmem i d fields hget hvars hnone
    simp at hmem
    obtain ⟨v', _, hv, hys⟩ := hmem
    subst hv
    rw [← hys, List.get?_map, hget]
    have hrec : recordVarGet d v' = (dictGet fields v').getD (JValue.num 0) := by
      unfold recordVarGet
      rw [hvars]
    simp only [Option.map_some', hrec, hnone, Option.getD_none]

/-- Two well-formed telemetry records whose variable sets differ: the first
has only "a", the second (latest) only "b". -/
def wfBuffer : List WebSocketData :=
  [{ timestamp := JValue.num 0, vars := JValue.obj [("a", JValue.num 1)] },
   { timestamp := JValue.num 1, vars := JValue.obj [("b", JValue.num 2)] }]

/-- C10 witness: on the two-record buffer whose latest record has variable
"b" that the older record lacks, the projection exists, is keyed by "b" and
is aligned — the older record contributing 0. -/
theorem update_plot_series_aligned_witness :
    wfBuffer ≠ [] ∧
    (∀ d ∈ wfBuffer, ∃ fields, d.vars = JValue.obj fields) ∧
    (∃ proj latest, wfBuffer.getLast? = some latest ∧
      updatePlotData wfBuffer = some proj ∧
      proj.vars = jsonObjKeys latest.vars ∧
      proj.times.length = wfBuffer.length ∧
      proj.series.map Prod.fst = proj.vars ∧
      (∀ pr ∈ proj.series, pr.2.length = wfBuffer.length) ∧
      (∀ v ys, (v, ys) ∈ proj.series → ∀ i d fields,
        wfBuffer.get? i = some d → d.vars = JValue.obj fields →
        dictGet fields v = none → ys.get? i = some (JValue.num 0))) := by
  have h1 : wfBuffer ≠ [] := by simp [wfBuffer]
  have h2 : ∀ d ∈ wfBuffer, ∃ fields, d.vars = JValue.obj fields := by
    intro d hd
    simp [wfBuffer] at hd
    rcases hd with h | h
    · exact ⟨_, by rw [h]⟩
    · exact ⟨_, by rw [h]⟩
  exact ⟨h1, h2, update_plot_series_aligned wfBuffer h1 h2⟩
